import Mathlib

/-!
Verification development for the `networks` repository: a shallow embedding
of its host-probing, protocol-detection, classification and latency-scanning
code, with theorems checking the natural-language specification against it.

Machine integers are modelled as `Nat`/`Int`; fallible code returns
`Except`/`Option`; stateful/networked code is modelled by explicit oracles
(the outcome each network operation would produce) together with an explicit
trace of the operations performed, so that ordering and resource claims can
be stated.
-/

namespace Networks

/-! ### PortScanner.scan_single_port (src/network_discovery/discovery/port_scanner.py)

The Python function creates a TCP socket, sets a timeout, calls
`connect_ex`, closes the socket and returns `(port, result == 0)`; the whole
body is wrapped in `try/except` and any exception yields `(port, False)`.
There is no `finally`: the `sock.close()` line is only reached when
`connect_ex` returns normally.  We model the outcome of `connect_ex` as
`Except String Int` (`.ok code` for a normal return of an error code,
`.error e` for a raised exception such as `socket.gaierror`), and record the
socket lifecycle events that the straight-line code actually executes. -/

/-- Socket lifecycle events observable from `scan_single_port`. -/
inductive SockEv where
  | created
  | closed
deriving DecidableEq, Repr

/-- Model of `PortScanner.scan_single_port`: returns the `(port, is_open)`
pair Python returns, plus the socket events executed.  On the exception path
the `except` clause returns `(port, False)` without ever reaching
`sock.close()`. -/
def scan_single_port (port : Nat) (connectRes : Except String Int) :
    (Nat × Bool) × List SockEv :=
  match connectRes with
  | .ok code => ((port, code == 0), [SockEv.created, SockEv.closed])
  | .error _ => ((port, false), [SockEv.created])

/-! ### IPv4 CIDR expansion
(src/net_scanner/ip_parser.py `IPParser.parse_line`, CIDR branch;
 src/network_discovery/discovery/port_scanner.py `PortScanner._parse_ip_range`)

Both functions expand a CIDR via Python's `ipaddress.ip_network(s,
strict=False).hosts()`.  For IPv4, `strict=False` masks the host bits;
`hosts()` yields all addresses except network and broadcast for prefixes up
to /30, both addresses for a /31 and the single address for a /32.
`parse_line` additionally truncates networks with more than 65536 addresses
to only `network[1]` and `network[-2]`.  Addresses are `Nat` values below
`2^32`. -/

/-- Build an IPv4 address from its four octets. -/
def mkIp (a b c d : Nat) : Nat := ((a * 256 + b) * 256 + c) * 256 + d

/-- Dotted-quad rendering of an IPv4 address, as `str(ipaddress.IPv4Address(n))`. -/
def ipv4ToString (n : Nat) : String :=
  toString (n / 16777216 % 256) ++ "." ++ toString (n / 65536 % 256) ++ "." ++
    toString (n / 256 % 256) ++ "." ++ toString (n % 256)

/-- Network address of `addr/p` with host bits masked off (`strict=False`). -/
def maskedNetwork (addr p : Nat) : Nat := addr - addr % 2 ^ (32 - p)

/-- Model of `ipaddress.ip_network(addr/p, strict=False).hosts()` for IPv4. -/
def networkHosts (addr p : Nat) : List Nat :=
  let net := maskedNetwork addr p
  let size := 2 ^ (32 - p)
  if p ≤ 30 then (List.range (size - 2)).map (fun i => net + 1 + i)
  else if p = 31 then [net, net + 1]
  else [net]

/-- Model of the CIDR branch of `IPParser.parse_line` on a valid IPv4 CIDR:
networks with more than 65536 addresses contribute only `network[1]` and
`network[-2]`; smaller networks contribute every address of `hosts()`. -/
def parse_line_cidr (addr p : Nat) : List String :=
  let net := maskedNetwork addr p
  let size := 2 ^ (32 - p)
  if size > 65536 then
    [ipv4ToString (net + 1), ipv4ToString (net + size - 2)]
  else
    (networkHosts addr p).map ipv4ToString

/-- Model of the CIDR branch of `PortScanner._parse_ip_range`: every address
of `hosts()`, with no size cap. -/
def parse_ip_range_cidr (addr p : Nat) : List String :=
  (networkHosts addr p).map ipv4ToString

/-! ### ProtocolDetector (src/network_discovery/connectors/protocol_detector.py)

`detect_all_protocols` scans all catalog ports, then for each protocol of
the static `PROTOCOL_PORTS` catalog marks it open when any of its candidate
ports is among the open ports, and records as `<protocol>_port` the first
candidate port (in the catalog's declared order) found open.  The network
part (which ports answer) is abstracted into the `open_ports` list the port
scanner returned; everything below is the pure part of the function. -/

/-- The static `ProtocolDetector.PROTOCOL_PORTS` catalog, in declaration order. -/
def PROTOCOL_PORTS : List (String × List Nat) :=
  [("ssh", [22, 2222, 22222]),
   ("telnet", [23, 2323]),
   ("snmp", [161]),
   ("http", [80, 8080]),
   ("https", [443, 8443]),
   ("netconf", [830]),
   ("ftp", [21]),
   ("tftp", [69]),
   ("syslog", [514]),
   ("radius", [1812, 1813]),
   ("tacacs", [49]),
   ("dns", [53]),
   ("ntp", [123]),
   ("ldap", [389, 636]),
   ("kerberos", [88])]

/-- Whether a catalog protocol is open: any of its candidate ports is an open
port (`any(port in open_ports for port in ports)`). -/
def protocolOpen (open_ports : List Nat) (proto : String) : Bool :=
  match PROTOCOL_PORTS.lookup proto with
  | some ports => ports.any (fun p => open_ports.contains p)
  | none => false

/-- The `<protocol>_port` entry: the first candidate port, in catalog order,
that is open (`for port in ports: if port in open_ports: ... break`). -/
def protocolPort (open_ports : List Nat) (proto : String) : Option Nat :=
  (PROTOCOL_PORTS.lookup proto).bind (List.find? (fun p => open_ports.contains p))

/-- The dictionary `detect_all_protocols` builds: one open flag per catalog
protocol plus the derived `has_management` and `has_web` flags. -/
structure ProtocolInfo where
  ssh : Bool
  telnet : Bool
  snmp : Bool
  http : Bool
  https : Bool
  netconf : Bool
  ftp : Bool
  tftp : Bool
  syslog : Bool
  radius : Bool
  tacacs : Bool
  dns : Bool
  ntp : Bool
  ldap : Bool
  kerberos : Bool
  has_management : Bool
  has_web : Bool
deriving DecidableEq, Repr

/-- Pure part of `ProtocolDetector.detect_all_protocols`, applied to the
`open_ports` list the port scan produced. -/
def detect_all_protocols (open_ports : List Nat) : ProtocolInfo :=
  { ssh := protocolOpen open_ports "ssh"
    telnet := protocolOpen open_ports "telnet"
    snmp := protocolOpen open_ports "snmp"
    http := protocolOpen open_ports "http"
    https := protocolOpen open_ports "https"
    netconf := protocolOpen open_ports "netconf"
    ftp := protocolOpen open_ports "ftp"
    tftp := protocolOpen open_ports "tftp"
    syslog := protocolOpen open_ports "syslog"
    radius := protocolOpen open_ports "radius"
    tacacs := protocolOpen open_ports "tacacs"
    dns := protocolOpen open_ports "dns"
    ntp := protocolOpen open_ports "ntp"
    ldap := protocolOpen open_ports "ldap"
    kerberos := protocolOpen open_ports "kerberos"
    has_management := protocolOpen open_ports "ssh" || protocolOpen open_ports "telnet"
    has_web := protocolOpen open_ports "http" || protocolOpen open_ports "https" }

/-! ### Data model (src/network_discovery/models/device.py)

`DeviceCredentials` is a dataclass whose `__post_init__` raises `ValueError`
for an empty username or a port outside `[1, 65535]`; we model it as a plain
structure plus a checked constructor `mkDeviceCredentials` returning
`Except`.  `DiscoveredDevice` carries the fields the engine populates via
`DeviceFactory.from_ssh_discovery` / `from_telnet_discovery`. -/

/-- Fields of the `DeviceCredentials` dataclass. -/
structure Cred where
  username : String
  password : String
  enable_password : Option String := none
  ssh_port : Int := 22
  telnet_port : Int := 23
  ssh_timeout : Int := 10
  telnet_timeout : Int := 10
  description : String := ""
deriving DecidableEq, Repr

/-- Checked construction of `DeviceCredentials`: the validation performed by
`DeviceCredentials.__post_init__`, which raises `ValueError` synchronously at
construction time (dataclass initialisation involves no network activity). -/
def mkDeviceCredentials (username password : String) (enable_password : Option String)
    (ssh_port telnet_port ssh_timeout telnet_timeout : Int) (description : String) :
    Except String Cred :=
  if username = "" then .error "empty username"
  else if ssh_port ≤ 0 ∨ ssh_port > 65535 then .error "bad ssh port"
  else if telnet_port ≤ 0 ∨ telnet_port > 65535 then .error "bad telnet port"
  else .ok ⟨username, password, enable_password, ssh_port, telnet_port,
            ssh_timeout, telnet_timeout, description⟩

/-- Classification data returned by `DeviceDetector.discover_via_ssh` /
`discover_via_telnet` (the `device_info` dictionary). -/
structure DeviceInfo where
  device_type : Option String := none
  vendor : Option String := none
  hostname : Option String := none
  model : Option String := none
  os_version : Option String := none
  serial_number : Option String := none
deriving DecidableEq, Repr

/-- Fields of the `DiscoveredDevice` dataclass populated during discovery. -/
structure Device where
  ip_address : String
  hostname : Option String
  device_type : Option String
  vendor : Option String
  model : Option String
  os_version : Option String
  serial_number : Option String
  username : Option String
  password : Option String
  enable_password : Option String
  ssh_port : Int
  telnet_port : Int
  protocol : String
  capabilities : List String
  status : String
deriving DecidableEq, Repr

/-- Model of `NetworkDiscoveryEngine._get_capabilities`: the capability list
built, in order, from the protocol flags of the surface scan. -/
def getCapabilities (s : ProtocolInfo) : List String :=
  (if s.ssh then ["ssh"] else []) ++
  (if s.telnet then ["telnet"] else []) ++
  (if s.http then ["http"] else []) ++
  (if s.https then ["https"] else []) ++
  (if s.snmp then ["snmp"] else []) ++
  (if s.netconf then ["netconf"] else []) ++
  (if s.ftp then ["ftp"] else []) ++
  (if s.tftp then ["tftp"] else [])

/-- Model of `DeviceFactory.from_ssh_discovery`: the fully-populated record
for a host identified over ssh (`protocol="ssh"`, `status="active"`,
`telnet_port` left at its dataclass default). -/
def fromSshDiscovery (ip : String) (c : Cred) (i : DeviceInfo)
    (capabilities : List String) : Device :=
  { ip_address := ip, hostname := i.hostname, device_type := i.device_type,
    vendor := i.vendor, model := i.model, os_version := i.os_version,
    serial_number := i.serial_number, username := some c.username,
    password := some c.password, enable_password := c.enable_password,
    ssh_port := c.ssh_port, telnet_port := 23, protocol := "ssh",
    capabilities := capabilities, status := "active" }

/-- Model of `DeviceFactory.from_telnet_discovery` (`protocol="telnet"`,
`ssh_port` left at its dataclass default). -/
def fromTelnetDiscovery (ip : String) (c : Cred) (i : DeviceInfo)
    (capabilities : List String) : Device :=
  { ip_address := ip, hostname := i.hostname, device_type := i.device_type,
    vendor := i.vendor, model := i.model, os_version := i.os_version,
    serial_number := i.serial_number, username := some c.username,
    password := some c.password, enable_password := c.enable_password,
    ssh_port := 22, telnet_port := c.telnet_port, protocol := "telnet",
    capabilities := capabilities, status := "active" }

/-! ### NetworkDiscoveryEngine (src/network_discovery/discovery/engine.py)

`discover_single_device` first runs the protocol-surface scan, fails
immediately when `has_management` is false, then — if ssh is open — iterates
the caller's credential list over `discover_via_ssh`, returning on the first
success; only when that loop falls through and telnet is open does it
iterate the same list over `discover_via_telnet`.  The network side is
abstracted by oracles: `open_ports` (what the port scan returns for the
host) and `sshDisc`/`telnetDisc` (what `DeviceDetector.discover_via_ssh` /
`discover_via_telnet` returns for a given credential — `none` means the
connection or every identification command failed).  We additionally record
the trace of probing operations in the order the code performs them. -/

/-- Probing operations performed by `discover_single_device`, in order: the
protocol-surface scan, one ssh discovery attempt per credential tried, one
telnet discovery attempt per credential tried. -/
inductive ProbeEv where
  | scan
  | ssh (c : Cred)
  | telnet (c : Cred)
deriving DecidableEq, Repr

/-- One credential-iteration loop of `discover_single_device`: try each
credential in the caller-supplied order, stopping at the first success.
Returns the result and the list of credentials actually attempted. -/
def tryCredentials (attempt : Cred → Option DeviceInfo) :
    List Cred → Option (Cred × DeviceInfo) × List Cred
  | [] => (none, [])
  | c :: cs =>
    match attempt c with
    | some i => (some (c, i), [c])
    | none =>
      let r := tryCredentials attempt cs
      (r.1, c :: r.2)

/-- Model of `NetworkDiscoveryEngine.discover_single_device`, returning the
discovered device (or `none`) together with the trace of probing operations. -/
def discover_single_device (ip : String) (open_ports : List Nat)
    (sshDisc telnetDisc : Cred → Option DeviceInfo) (creds : List Cred) :
    Option Device × List ProbeEv :=
  let surface := detect_all_protocols open_ports
  if !surface.has_management then (none, [ProbeEv.scan])
  else
    let sshTry := if surface.ssh then tryCredentials sshDisc creds else (none, [])
    match sshTry.1 with
    | some (c, i) =>
      (some (fromSshDiscovery ip c i (getCapabilities surface)),
       ProbeEv.scan :: sshTry.2.map ProbeEv.ssh)
    | none =>
      let telTry := if surface.telnet then tryCredentials telnetDisc creds else (none, [])
      match telTry.1 with
      | some (c, i) =>
        (some (fromTelnetDiscovery ip c i (getCapabilities surface)),
         ProbeEv.scan :: (sshTry.2.map ProbeEv.ssh ++ telTry.2.map ProbeEv.telnet))
      | none =>
        (none, ProbeEv.scan :: (sshTry.2.map ProbeEv.ssh ++ telTry.2.map ProbeEv.telnet))

/-- Model of `NetworkDiscoveryEngine.discover_devices`: one
`discover_single_device` per target (the thread pool writes each result
under its own distinct key, so the resulting map does not depend on
completion order and is modelled in submission order); hosts that produced
no device are simply absent from the result map.  The second component is
the combined trace of probing operations, tagged with the host.  Note the
function performs no validation of `ips` or `creds`. -/
def discover_devices (open_ports : String → List Nat)
    (sshDisc telnetDisc : String → Cred → Option DeviceInfo)
    (ips : List String) (creds : List Cred) :
    List (String × Device) × List (String × ProbeEv) :=
  match ips with
  | [] => ([], [])
  | ip :: rest =>
    let r := discover_single_device ip (open_ports ip) (sshDisc ip) (telnetDisc ip) creds
    let tail := discover_devices open_ports sshDisc telnetDisc rest creds
    ((match r.1 with
      | some d => (ip, d) :: tail.1
      | none => tail.1),
     r.2.map (fun e => (ip, e)) ++ tail.2)

/-! ### DeviceDetector.detect_vendor (src/network_discovery/discovery/device_detector.py)

The vendor is determined by `re.search`-ing each pattern of the ordered
`VENDOR_PATTERNS` table against the lower-cased output; the first vendor
(in table order) one of whose patterns matches wins.  Every pattern in the
table is a concatenation of single-character atoms — a literal character, a
character class such as `[0-9]` or `[c|s]`, or the class `\s` — optionally
repeated with `+`; we compile each of them by hand into a token list and run
an exact backtracking matcher.  `detectVendorName` below is the computation
performed on a cache miss; `detect_vendor_cached` adds the `self.cache`
state, which is keyed by `hash(output[:500])` although the patterns are
matched against the whole output.  The model-extraction component
(`_extract_model`) only fills the second component of the returned pair and
is not part of the vendor choice, so the embedding returns the vendor
component. -/

/-- One regex atom: a character class, optionally `+`-repeated. -/
structure Tok where
  cls : List Char
  many : Bool
deriving DecidableEq, Repr

/-- The digits class `[0-9]`. -/
def digitsCls : List Char := ['0', '1', '2', '3', '4', '5', '6', '7', '8', '9']

/-- The whitespace class `\s`. -/
def wsCls : List Char := [' ', '\t', '\n', '\r', '\x0b', '\x0c']

/-- Tokens of a literal string pattern. -/
def lit (s : String) : List Tok := s.data.map (fun c => ⟨[c], false⟩)

/-- The token `[0-9]+`. -/
def dplus : List Tok := [⟨digitsCls, true⟩]

/-- The token `\s+`. -/
def wplus : List Tok := [⟨wsCls, true⟩]

/-- Does the token list match a prefix-portion of the character list starting
at its head?  A `+`-token consumes one or more characters of its class
(backtracking over the split point). -/
def matchToks : List Tok → List Char → Bool
  | [], _ => true
  | _ :: _, [] => false
  | t :: ts, c :: cs =>
    t.cls.contains c && (matchToks ts cs || (t.many && matchToks (t :: ts) cs))

/-- Model of `re.search`: does the token list match starting at any position? -/
def searchToks (p : List Tok) : List Char → Bool
  | [] => matchToks p []
  | c :: cs => matchToks p (c :: cs) || searchToks p cs

/-- The ordered `DeviceDetector.VENDOR_PATTERNS` table, each regex compiled
into its token list. -/
def VENDOR_PATTERNS : List (String × List (List Tok)) :=
  [("Cisco",
    [lit "cisco", lit "ios", lit "ios" ++ wplus ++ lit "xe",
     lit "ios" ++ wplus ++ lit "xr", lit "nexus", lit "asa",
     lit "cat" ++ dplus, lit "ws-" ++ [⟨['c', '|', 's'], false⟩],
     lit "c" ++ dplus, lit "asr" ++ dplus, lit "isr" ++ dplus]),
   ("Juniper",
    [lit "juniper", lit "junos", lit "srx", lit "ex" ++ dplus,
     lit "mx" ++ dplus, lit "ptx" ++ dplus, lit "qfx" ++ dplus]),
   ("HP/HPE/Aruba",
    [lit "procurve", lit "aruba", lit "hp", lit "comware", lit "1910",
     lit "2920", lit "3800", lit "5400", lit "8200"]),
   ("MikroTik",
    [lit "mikrotik", lit "routeros", lit "ccr", lit "rb", lit "hex", lit "hap"]),
   ("Arista", [lit "arista", lit "eos", lit "dcs"]),
   ("Palo Alto", [lit "palo", lit "pan-os", lit "pa-" ++ dplus]),
   ("Fortinet", [lit "fortinet", lit "fortios", lit "fortigate"]),
   ("Ubiquiti", [lit "ubiquiti", lit "edgerouter", lit "edgeswitch", lit "unifi"]),
   ("Linux",
    [lit "linux", lit "ubuntu", lit "debian", lit "centos",
     lit "red" ++ wplus ++ lit "hat", lit "fedora"]),
   ("Huawei", [lit "huawei", lit "vrp", lit "ce" ++ dplus, lit "ne" ++ dplus]),
   ("Dell", [lit "dell", lit "powerconnect", lit "force10", lit "n" ++ dplus]),
   ("Extreme", [lit "extreme", lit "exos"]),
   ("Brocade", [lit "brocade", lit "vdx", lit "netiron", lit "fastiron"]),
   ("Nokia", [lit "nokia", lit "sr" ++ wplus ++ lit "os", lit "alu"])]

/-- Vendor determination of `DeviceDetector.detect_vendor`: the first vendor
in `VENDOR_PATTERNS` order one of whose patterns matches the lower-cased
output wins; otherwise the keyword fallback is consulted. -/
def detectVendorName (output : String) : Option String :=
  let lower := output.data.map Char.toLower
  match VENDOR_PATTERNS.find? (fun vp => vp.2.any (fun p => searchToks p lower)) with
  | some vp => some vp.1
  | none =>
    if searchToks (lit "cisco") lower then some "Cisco"
    else if searchToks (lit "juniper") lower then some "Juniper"
    else if searchToks (lit "mikrotik") lower then some "MikroTik"
    else if searchToks (lit "linux") lower then some "Linux"
    else none

/-- Stateful model of `DeviceDetector.detect_vendor` including `self.cache`.
The Python cache is keyed by `hash(output[:500])`; within one run the hash
is deterministic, so any two outputs sharing their first 500 characters
alias to the same key — the model takes the key to be that 500-character
prefix itself (a genuine hash collision between different prefixes would
only add further aliasing).  A hit returns the cached vendor and leaves the
cache unchanged; a miss computes the vendor from the pattern table and
stores it exactly when one was found (both the pattern loop and the keyword
fallback only ever store a found vendor). -/
def detect_vendor_cached (cache : List (List Char × String)) (output : String) :
    Option String × List (List Char × String) :=
  let key := output.data.take 500
  match cache.lookup key with
  | some v => (some v, cache)
  | none =>
    match detectVendorName output with
    | some vn => (some vn, (key, vn) :: cache)
    | none => (none, cache)

/-- An identification output of exactly 500 characters that classifies as
Juniper: `juniper` followed by 493 filler characters. -/
def longJuniper : String := "juniper" ++ String.mk (List.replicate 493 'z')

/-- An output sharing its entire first 500 characters with `longJuniper`
while also containing `cisco`. -/
def bothVendors : String := longJuniper ++ " cisco"

/-! ### AsyncPingScanner (src/net_scanner/scanner.py) and ScanSummary
(src/net_scanner/config.py)

`scan_hosts` runs Phase 1 (`_check_availability`: one `_execute_ping` per
host; an exception in the task yields a dead record with `last_error`
populated, success yields a record whose `avg_latency` is the latency the
single Phase-1 ping parsed) and then Phase 2 (`_measure_latencies` over the
hosts Phase 1 found alive: `_measure_latency` averages the successful
samples of the sampling window, an exception only sets `last_error`, a
`None` average leaves the record untouched).  Latency values are modelled
as rationals; Phase-1 outcomes and Phase-2 sampling windows are oracles per
host; the result map is a function `String → Option ScanResult`. -/

/-- The `PingResult` enumeration. -/
inductive PingRes where
  | success
  | timeout
  | unreachable
  | error
deriving DecidableEq, Repr

/-- The `ScanResult` dataclass. -/
structure ScanResult where
  ip : String
  is_alive : Bool
  avg_latency : Option ℚ := none
  latencies : List ℚ := []
  error_count : Nat := 0
  success_count : Nat := 0
  last_error : Option String := none
deriving DecidableEq, Repr

/-- Round half to even on rationals (the rounding of Python's built-in
`round`). -/
def halfEvenRound (q : ℚ) : ℤ :=
  let f := ⌊q⌋
  if q - f < 1 / 2 then f
  else if q - f > 1 / 2 then f + 1
  else if f % 2 = 0 then f else f + 1

/-- Python's `round(x, 2)`. -/
def pythonRound2 (q : ℚ) : ℚ := (halfEvenRound (q * 100) : ℚ) / 100

/-- Successful samples of a Phase-2 sampling window: those whose ping result
is `SUCCESS` with a parsed latency (`result == PingResult.SUCCESS and
latency is not None`). -/
def successLatencies (samples : List (PingRes × Option ℚ)) : List ℚ :=
  samples.filterMap (fun s =>
    match s with
    | (PingRes.success, some l) => some l
    | _ => none)

/-- Model of `AsyncPingScanner._measure_latency` applied to the samples its
sampling window produced: the arithmetic mean of the successful samples
rounded to 2 decimals, or `None` when there were none. -/
def measureLatency (samples : List (PingRes × Option ℚ)) : Option ℚ :=
  let ls := successLatencies samples
  if ls.isEmpty then none
  else some (pythonRound2 (ls.sum / ls.length))

/-- The record Phase 1 stores for a host: on a task exception a dead record
with `last_error` set; otherwise liveness from the ping outcome and, for an
alive host, the latency parsed from that single Phase-1 ping. -/
def phase1Record (o1 : String → Except String (Bool × Option ℚ)) (ip : String) :
    ScanResult :=
  match o1 ip with
  | .error e => { ip := ip, is_alive := false, last_error := some e }
  | .ok (alive, lat) =>
    { ip := ip, is_alive := alive, avg_latency := if alive then lat else none }

/-- Point update of the result map. -/
def mapInsert (m : String → Option ScanResult) (ip : String) (r : ScanResult) :
    String → Option ScanResult :=
  fun x => if x = ip then some r else m x

/-- Phase-1 loop of `_check_availability`: store one record per input host,
in list order. -/
def runPhase1 (o1 : String → Except String (Bool × Option ℚ)) :
    List String → (String → Option ScanResult) → (String → Option ScanResult)
  | [], m => m
  | ip :: rest, m => runPhase1 o1 rest (mapInsert m ip (phase1Record o1 ip))

/-- Did the host's Phase-1 ping succeed (`is_alive` in `_check_single_host`)? -/
def phase1Alive (o1 : String → Except String (Bool × Option ℚ))
    (ip : String) : Bool :=
  match o1 ip with
  | .ok (true, _) => true
  | _ => false

/-- The `alive_hosts` list `_check_availability` returns: the input hosts, in
order, whose Phase-1 ping succeeded. -/
def aliveHosts (o1 : String → Except String (Bool × Option ℚ))
    (ips : List String) : List String :=
  ips.filter (phase1Alive o1)

/-- Phase-2 update of one host's record in `_measure_latencies`: an exception
from the measuring task sets `last_error`; a measured average replaces
`avg_latency`; a `None` average leaves the record unchanged. -/
def phase2Update (o2 : String → Except String (List (PingRes × Option ℚ)))
    (ip : String) (r : ScanResult) : ScanResult :=
  match o2 ip with
  | .error e => { r with last_error := some e }
  | .ok samples =>
    match measureLatency samples with
    | some v => { r with avg_latency := some v }
    | none => r

/-- Phase-2 loop of `_measure_latencies` over the alive hosts. -/
def runPhase2 (o2 : String → Except String (List (PingRes × Option ℚ))) :
    List String → (String → Option ScanResult) → (String → Option ScanResult)
  | [], m => m
  | ip :: rest, m =>
    runPhase2 o2 rest (fun x => if x = ip then (m ip).map (phase2Update o2 ip) else m x)

/-- Model of `AsyncPingScanner.scan_hosts`: Phase 1 over all hosts starting
from an empty result map, then Phase 2 over the hosts Phase 1 found alive. -/
def scan_hosts (o1 : String → Except String (Bool × Option ℚ))
    (o2 : String → Except String (List (PingRes × Option ℚ)))
    (ips : List String) : String → Option ScanResult :=
  runPhase2 o2 (aliveHosts o1 ips) (runPhase1 o1 ips (fun _ => none))

/-- The `ScanSummary` dataclass. -/
structure ScanSummary where
  total_hosts : Nat := 0
  alive_hosts : Nat := 0
  dead_hosts : Nat := 0
  scan_duration : ℚ := 0
  start_time : Option ℚ := none
  end_time : Option ℚ := none
deriving DecidableEq, Repr

/-- The `ScanSummary.alive_percent` property. -/
def ScanSummary.alive_percent (s : ScanSummary) : ℚ :=
  if s.total_hosts = 0 then 0
  else (s.alive_hosts : ℚ) / (s.total_hosts : ℚ) * 100

/-- The `ScanSummary.dead_percent` property. -/
def ScanSummary.dead_percent (s : ScanSummary) : ℚ :=
  if s.total_hosts = 0 then 0
  else (s.dead_hosts : ℚ) / (s.total_hosts : ℚ) * 100

/-! ## Theorems -/

/-- C9: `ScanSummary.alive_percent` returns `0` when `total_hosts = 0` (no
division fault — the zero case is explicit), returns `50` for `alive_hosts =
1, total_hosts = 2`, and `dead_percent` likewise returns `0` when
`total_hosts = 0`, whatever the other fields hold. -/
theorem scan_summary_percentages :
    (∀ a d dur st en, ScanSummary.alive_percent ⟨0, a, d, dur, st, en⟩ = 0) ∧
    (∀ d dur st en, ScanSummary.alive_percent ⟨2, 1, d, dur, st, en⟩ = 50) ∧
    (∀ a d dur st en, ScanSummary.dead_percent ⟨0, a, d, dur, st, en⟩ = 0) := by
  refine ⟨?_, ?_, ?_⟩
  · intros
    simp [ScanSummary.alive_percent]
  · intros
    simp [ScanSummary.alive_percent]
    norm_num
  · intros
    simp [ScanSummary.dead_percent]

/-- C3 counterexample: when `connect_ex` raises (modelled by an `error`
outcome, e.g. `socket.gaierror`), `scan_single_port` still returns
`(port, False)` — but the socket it created is never closed: the code has no
`finally`, so the claim that the socket is closed on every exit path,
including the exception path, is false. -/
theorem scan_single_port_cex :
    SockEv.closed ∉ (scan_single_port 22 (Except.error "gaierror")).2 ∧
    (scan_single_port 22 (Except.error "gaierror")).1 = (22, false) := by
  constructor
  · decide
  · rfl

/-- C3 amended: `scan_single_port` never raises past its boundary — a normal
`connect_ex` return yields `(port, code == 0)` and every exception
normalises to `(port, false)` — and the ephemeral socket is closed on the
normal exit paths (success and refusal alike) but not on the exception
path, where the `except` clause returns before `sock.close()` runs. -/
theorem scan_single_port_amended (port : Nat) (res : Except String Int) :
    (scan_single_port port res).1 =
      (port, match res with
             | .ok code => code == 0
             | .error _ => false) ∧
    (SockEv.closed ∈ (scan_single_port port res).2 ↔ ∃ code, res = .ok code) ∧
    SockEv.created ∈ (scan_single_port port res).2 := by
  cases res <;> simp [scan_single_port]

/-- C3 witness: the amended theorem instantiated at a successful connect:
the result is `(22, true)` and the socket is closed. -/
theorem scan_single_port_amended_witness :
    (scan_single_port 22 (Except.ok 0)).1 = (22, true) ∧
    SockEv.closed ∈ (scan_single_port 22 (Except.ok 0)).2 := by
  have h := scan_single_port_amended 22 (Except.ok 0)
  exact ⟨h.1.trans (by decide), h.2.1.mpr ⟨0, rfl⟩⟩

/-- C2 counterexample: `IPParser.parse_line` does not expand every valid
CIDR to its usable host count — a network with more than 65536 addresses is
truncated to just its first and last usable address.  `10.0.0.0/8` expands
to 2 addresses, not the `2^24 - 2` usable hosts of the network. -/
theorem cidr_expansion_cex :
    (parse_line_cidr (mkIp 10 0 0 0) 8).length = 2 ∧ 2 ≠ 2 ^ 24 - 2 := by
  constructor
  · rfl
  · decide

/-- C2 amended: `PortScanner._parse_ip_range` expands every IPv4 CIDR with
prefix at most /30 to exactly the usable host count `2^(32-p) - 2` (network
and broadcast excluded), and `IPParser.parse_line` does the same for
networks of at most 65536 addresses; in particular both expand
`192.168.1.0/30` to exactly `192.168.1.1` and `192.168.1.2`.  (Larger
networks are truncated by `parse_line` to first and last usable address, as
the counterexample records.) -/
theorem cidr_expansion_amended (addr p : Nat) (hp : p ≤ 30) :
    (parse_ip_range_cidr addr p).length = 2 ^ (32 - p) - 2 ∧
    (2 ^ (32 - p) ≤ 65536 → (parse_line_cidr addr p).length = 2 ^ (32 - p) - 2) ∧
    parse_line_cidr (mkIp 192 168 1 0) 30 = ["192.168.1.1", "192.168.1.2"] ∧
    parse_ip_range_cidr (mkIp 192 168 1 0) 30 = ["192.168.1.1", "192.168.1.2"] := by
  refine ⟨?_, ?_, by rfl, by rfl⟩
  · simp [parse_ip_range_cidr, networkHosts, hp]
  · intro hsize
    have hnle : ¬ 2 ^ (32 - p) > 65536 := by omega
    simp [parse_line_cidr, networkHosts, hp, hnle]

/-- C2 witness: the amended theorem instantiated at `10.0.0.0/24`: both
expansions have exactly 254 addresses. -/
theorem cidr_expansion_amended_witness :
    (24 ≤ 30 ∧ 2 ^ (32 - 24) ≤ 65536) ∧
    (parse_ip_range_cidr (mkIp 10 0 0 0) 24).length = 2 ^ (32 - 24) - 2 ∧
    (parse_line_cidr (mkIp 10 0 0 0) 24).length = 2 ^ (32 - 24) - 2 := by
  have h := cidr_expansion_amended (mkIp 10 0 0 0) 24 (by decide)
  exact ⟨by decide, h.1, h.2.1 (by decide)⟩

/-- C4: for every protocol of the static catalog, the surface scan marks the
protocol open iff one of its candidate ports is among the open ports; the
recorded protocol port is the first open candidate in the catalog's declared
port order; both are functions of open-port membership only, hence
independent of the order in which the port probes completed; and
`has_management` is `ssh_open OR telnet_open`. -/
theorem protocol_surface_detection (op op2 : List Nat) (proto : String)
    (ports : List Nat) (hmem : (proto, ports) ∈ PROTOCOL_PORTS)
    (hperm : ∀ p, p ∈ op ↔ p ∈ op2) :
    (protocolOpen op proto = true ↔ ∃ p ∈ ports, p ∈ op) ∧
    protocolPort op proto = ports.find? (fun p => op.contains p) ∧
    protocolOpen op proto = protocolOpen op2 proto ∧
    protocolPort op proto = protocolPort op2 proto ∧
    (detect_all_protocols op).has_management =
      (protocolOpen op "ssh" || protocolOpen op "telnet") := by
  have hcont : (fun p => op.contains p) = (fun p => op2.contains p) := by
    funext p
    exact Bool.eq_iff_iff.mpr (List.elem_iff.trans ((hperm p).trans List.elem_iff.symm))
  have hlookup : PROTOCOL_PORTS.lookup proto = some ports := by
    simp only [PROTOCOL_PORTS, List.mem_cons, List.not_mem_nil, or_false,
      Prod.mk.injEq] at hmem
    rcases hmem with ⟨h1, h2⟩ | ⟨h1, h2⟩ | ⟨h1, h2⟩ | ⟨h1, h2⟩ | ⟨h1, h2⟩ |
      ⟨h1, h2⟩ | ⟨h1, h2⟩ | ⟨h1, h2⟩ | ⟨h1, h2⟩ | ⟨h1, h2⟩ | ⟨h1, h2⟩ |
      ⟨h1, h2⟩ | ⟨h1, h2⟩ | ⟨h1, h2⟩ | ⟨h1, h2⟩ <;> subst h1 <;> subst h2 <;> rfl
  refine ⟨?_, ?_, ?_, ?_, rfl⟩
  · simp [protocolOpen, hlookup, List.any_eq_true, List.elem_iff]
  · simp [protocolPort, hlookup]
  · simp only [protocolOpen, hlookup]
    rw [hcont]
  · simp only [protocolPort, hlookup, Option.some_bind]
    rw [hcont]

/-- C4 witness: the theorem instantiated for ssh with open ports
`[2222, 23]`: ssh is open, its recorded port is 2222 (the first open
candidate of `[22, 2222, 22222]` in catalog order, not the probe-completion
order), and `has_management` is true. -/
theorem protocol_surface_detection_witness :
    (("ssh", [22, 2222, 22222]) ∈ PROTOCOL_PORTS) ∧
    (protocolOpen [2222, 23] "ssh" = true ↔ ∃ p ∈ [22, 2222, 22222], p ∈ [2222, 23]) ∧
    protocolPort [2222, 23] "ssh" =
      [22, 2222, 22222].find? (fun p => [2222, 23].contains p) ∧
    protocolOpen [2222, 23] "ssh" = protocolOpen [2222, 23] "ssh" ∧
    protocolPort [2222, 23] "ssh" = protocolPort [2222, 23] "ssh" ∧
    (detect_all_protocols [2222, 23]).has_management =
      (protocolOpen [2222, 23] "ssh" || protocolOpen [2222, 23] "telnet") := by
  have h := protocol_surface_detection [2222, 23] [2222, 23] "ssh" [22, 2222, 22222]
    (by decide) (fun p => Iff.rfl)
  exact ⟨by decide, h.1, h.2.1, h.2.2.1, h.2.2.2.1, h.2.2.2.2⟩

/-- Helper: on the miss path (the pure pattern-table computation), an
output whose lower-cased text contains both `cisco` and `juniper` is
assigned Cisco, the vendor whose pattern list appears first in
`VENDOR_PATTERNS`. -/
theorem detectVendorName_both_cisco (output : String)
    (hc : searchToks (lit "cisco") (output.data.map Char.toLower) = true)
    (hj : searchToks (lit "juniper") (output.data.map Char.toLower) = true) :
    detectVendorName output = some "Cisco" := by
  have hfind :
      VENDOR_PATTERNS.find?
        (fun vp => vp.2.any (fun p => searchToks p (output.data.map Char.toLower))) =
        some ("Cisco",
          [lit "cisco", lit "ios", lit "ios" ++ wplus ++ lit "xe",
           lit "ios" ++ wplus ++ lit "xr", lit "nexus", lit "asa",
           lit "cat" ++ dplus, lit "ws-" ++ [⟨['c', '|', 's'], false⟩],
           lit "c" ++ dplus, lit "asr" ++ dplus, lit "isr" ++ dplus]) := by
    unfold VENDOR_PATTERNS
    apply List.find?_cons_of_pos
    simp only [List.any_cons]
    rw [hc]
    simp
  simp only [detectVendorName]
  rw [hfind]

set_option maxRecDepth 2000000 in
/-- C5 counterexample: the classifier is not deterministic across cache
states and table order does not always decide ambiguity, because
`detect_vendor`'s cache key covers only the first 500 characters of the
output while patterns match the whole output.  After a fresh detector
classifies `longJuniper` (500 characters, Juniper), the output
`bothVendors` — which contains both `cisco` and `juniper` — aliases to the
same cache key and is assigned the stale Juniper, although the identical
input on a fresh detector is assigned Cisco. -/
theorem classifier_vendor_tiebreak_cex :
    (searchToks (lit "cisco") (bothVendors.data.map Char.toLower) = true ∧
     searchToks (lit "juniper") (bothVendors.data.map Char.toLower) = true) ∧
    (detect_vendor_cached (detect_vendor_cached [] longJuniper).2 bothVendors).1 =
      some "Juniper" ∧
    (detect_vendor_cached [] bothVendors).1 = some "Cisco" ∧
    some "Juniper" ≠ some "Cisco" := by
  exact ⟨⟨by decide, by decide⟩, by decide, by decide, by decide⟩

/-- C5 amended: identical raw input yields identical classification per
cache state, and vendor-table order resolves ambiguity whenever the
classification is actually computed — that is, whenever the cache holds no
entry for the input's 500-character key (on a fresh detector in
particular): then an input containing both a `cisco` and a `juniper`
substring is assigned Cisco, the vendor whose pattern list appears first
in the fixed table, regardless of where the substrings occur in the text.
On a cache hit the detector instead returns the vendor cached for the
earlier output that shared the same first 500 characters (see the
counterexample). -/
theorem classifier_vendor_tiebreak_amended (cache : List (List Char × String))
    (output : String)
    (hmiss : cache.lookup (output.data.take 500) = none)
    (hc : searchToks (lit "cisco") (output.data.map Char.toLower) = true)
    (hj : searchToks (lit "juniper") (output.data.map Char.toLower) = true) :
    (detect_vendor_cached cache output).1 = some "Cisco" := by
  have hv := detectVendorName_both_cisco output hc hj
  simp [detect_vendor_cached, hmiss, hv]

/-- C5 witness: a fresh detector (empty cache) classifying an output that
mentions Juniper before Cisco still assigns Cisco, per table order. -/
theorem classifier_vendor_tiebreak_amended_witness :
    (([] : List (List Char × String)).lookup
        (("Juniper JUNOS vs Cisco IOS").data.take 500) = none) ∧
    (detect_vendor_cached [] "Juniper JUNOS vs Cisco IOS").1 = some "Cisco" :=
  ⟨rfl, classifier_vendor_tiebreak_amended [] "Juniper JUNOS vs Cisco IOS" rfl
    (by decide) (by decide)⟩

/-- Helper: the credentials a `tryCredentials` loop attempts are an initial
segment of the caller-supplied list. -/
theorem tryCredentials_initial (attempt : Cred → Option DeviceInfo) :
    ∀ cs : List Cred, ∃ suf, cs = (tryCredentials attempt cs).2 ++ suf := by
  intro cs
  induction cs with
  | nil => exact ⟨[], rfl⟩
  | cons c cs ih =>
    cases h : attempt c with
    | some i => exact ⟨cs, by simp [tryCredentials, h]⟩
    | none =>
      obtain ⟨suf, hsuf⟩ := ih
      exact ⟨suf, by simp [tryCredentials, h]; exact hsuf⟩

/-- Helper: the loop finds no credential exactly when every credential in
the list fails. -/
theorem tryCredentials_none_iff (attempt : Cred → Option DeviceInfo) :
    ∀ cs : List Cred,
      (tryCredentials attempt cs).1 = none ↔ ∀ c ∈ cs, attempt c = none := by
  intro cs
  induction cs with
  | nil => simp [tryCredentials]
  | cons c cs ih =>
    cases h : attempt c with
    | some i => simp [tryCredentials, h]
    | none => simp [tryCredentials, h, ih]

/-- Helper: when every credential fails, the loop attempts the entire list. -/
theorem tryCredentials_all_fail (attempt : Cred → Option DeviceInfo) :
    ∀ cs : List Cred, (∀ c ∈ cs, attempt c = none) →
      tryCredentials attempt cs = (none, cs) := by
  intro cs
  induction cs with
  | nil => intro _; rfl
  | cons c cs ih =>
    intro h
    have hc : attempt c = none := h c (List.mem_cons_self c cs)
    have hrest := ih (fun x hx => h x (List.mem_cons_of_mem c hx))
    simp [tryCredentials, hc, hrest]

/-- C1: for a host whose protocol surface shows ssh open, protocol
preference is strict priority.  First, if any caller-supplied credential
authenticates over ssh, the probe performs no telnet attempt at all.
Second, the trace is exactly one surface scan followed by ssh attempts on
an initial segment of the caller's credential list (in caller order) and
then telnet attempts on an initial segment of the same list (in caller
order) — and any telnet attempt at all implies that the ssh pass attempted
the *entire* credential list and every credential failed over ssh. -/
theorem ssh_strict_priority (ip : String) (op : List Nat)
    (sshDisc telnetDisc : Cred → Option DeviceInfo) (creds : List Cred)
    (hssh : protocolOpen op "ssh" = true) :
    ((∃ c ∈ creds, (sshDisc c).isSome) →
      ∀ c, ProbeEv.telnet c ∉ (discover_single_device ip op sshDisc telnetDisc creds).2) ∧
    (∃ sshTried telTried : List Cred, ∃ suf1 suf2 : List Cred,
      creds = sshTried ++ suf1 ∧ creds = telTried ++ suf2 ∧
      (discover_single_device ip op sshDisc telnetDisc creds).2 =
        ProbeEv.scan :: (sshTried.map ProbeEv.ssh ++ telTried.map ProbeEv.telnet) ∧
      (telTried ≠ [] → sshTried = creds ∧ ∀ c ∈ creds, sshDisc c = none)) := by
  have hmgmt : (detect_all_protocols op).has_management = true := by
    simp [detect_all_protocols, hssh]
  have hsurf : (detect_all_protocols op).ssh = true := hssh
  cases hres : (tryCredentials sshDisc creds).1 with
  | some ci =>
    have htr :
        (discover_single_device ip op sshDisc telnetDisc creds).2 =
          ProbeEv.scan :: (tryCredentials sshDisc creds).2.map ProbeEv.ssh := by
      obtain ⟨c, i⟩ := ci
      simp [discover_single_device, hmgmt, hsurf, hres]
    constructor
    · intro _ c hc
      rw [htr] at hc
      simp at hc
    · obtain ⟨suf, hsuf⟩ := tryCredentials_initial sshDisc creds
      refine ⟨(tryCredentials sshDisc creds).2, [], suf, creds, hsuf, by simp, ?_, ?_⟩
      · simp [htr]
      · intro h
        exact absurd rfl h
  | none =>
    have hfailall : ∀ c ∈ creds, sshDisc c = none :=
      (tryCredentials_none_iff sshDisc creds).mp hres
    have hfull : tryCredentials sshDisc creds = (none, creds) :=
      tryCredentials_all_fail sshDisc creds hfailall
    constructor
    · rintro ⟨c, hc, hcs⟩
      rw [hfailall c hc] at hcs
      simp at hcs
    · cases htel : (detect_all_protocols op).telnet with
      | false =>
        refine ⟨creds, [], [], creds, by simp, by simp, ?_, ?_⟩
        · cases hres2 : (tryCredentials telnetDisc creds).1 with
          | some ci =>
            obtain ⟨c, i⟩ := ci
            simp [discover_single_device, hmgmt, hsurf, hfull, htel]
          | none =>
            simp [discover_single_device, hmgmt, hsurf, hfull, htel]
        · intro h
          exact absurd rfl h
      | true =>
        obtain ⟨suf, hsuf⟩ := tryCredentials_initial telnetDisc creds
        refine ⟨creds, (tryCredentials telnetDisc creds).2, [], suf,
          by simp, hsuf, ?_, fun _ => ⟨rfl, hfailall⟩⟩
        cases hres2 : (tryCredentials telnetDisc creds).1 with
        | some ci =>
          obtain ⟨c, i⟩ := ci
          simp [discover_single_device, hmgmt, hsurf, hfull, htel, hres2]
        | none =>
          simp [discover_single_device, hmgmt, hsurf, hfull, htel, hres2]

/-- C1 witness: credentials `[A, B, C]` where only `C` authenticates over
ssh on a host with port 22 open: `A` and `B` are attempted first, in order,
and no telnet attempt occurs. -/
theorem ssh_strict_priority_witness :
    protocolOpen [22] "ssh" = true ∧
    (discover_single_device "10.0.0.5" [22]
        (fun c => if c.username = "C" then some {} else none) (fun _ => none)
        [{ username := "A", password := "x" }, { username := "B", password := "x" },
         { username := "C", password := "x" }]).2 =
      [ProbeEv.scan, ProbeEv.ssh { username := "A", password := "x" },
       ProbeEv.ssh { username := "B", password := "x" },
       ProbeEv.ssh { username := "C", password := "x" }] := by
  have h := ssh_strict_priority "10.0.0.5" [22]
    (fun c => if c.username = "C" then some {} else none) (fun _ => none)
    [{ username := "A", password := "x" }, { username := "B", password := "x" },
     { username := "C", password := "x" }] (by decide)
  exact ⟨by decide, by decide⟩

/-- C6: a host with `has_management` false fails immediately — the probe
returns no record and its trace is the surface scan alone; and whenever no
credential authenticates on either transport, the probe returns no device
record at all (never a partially-populated one). -/
theorem no_auth_no_record (ip : String) (op : List Nat)
    (sshDisc telnetDisc : Cred → Option DeviceInfo) (creds : List Cred) :
    ((detect_all_protocols op).has_management = false →
      discover_single_device ip op sshDisc telnetDisc creds = (none, [ProbeEv.scan])) ∧
    ((∀ c ∈ creds, sshDisc c = none) → (∀ c ∈ creds, telnetDisc c = none) →
      (discover_single_device ip op sshDisc telnetDisc creds).1 = none) := by
  constructor
  · intro h
    simp [discover_single_device, h]
  · intro hs ht
    have hs1 : (tryCredentials sshDisc creds).1 = none :=
      (tryCredentials_none_iff sshDisc creds).mpr hs
    have ht1 : (tryCredentials telnetDisc creds).1 = none :=
      (tryCredentials_none_iff telnetDisc creds).mpr ht
    cases hm : (detect_all_protocols op).has_management with
    | false => simp [discover_single_device, hm]
    | true =>
      cases hsb : (detect_all_protocols op).ssh with
      | false =>
        cases htb : (detect_all_protocols op).telnet with
        | false => simp [discover_single_device, hm, hsb, htb]
        | true => simp [discover_single_device, hm, hsb, htb, ht1]
      | true =>
        cases htb : (detect_all_protocols op).telnet with
        | false => simp [discover_single_device, hm, hsb, htb, hs1]
        | true => simp [discover_single_device, hm, hsb, htb, hs1, ht1]

/-- C6 witness: a host with no open ports (`has_management` false) fails
immediately with only the surface scan in its trace, and a host with ssh
open but oracles on which every credential fails returns no record. -/
theorem no_auth_no_record_witness :
    discover_single_device "10.0.0.5" [] (fun _ => none) (fun _ => none)
        [{ username := "A", password := "x" }] = (none, [ProbeEv.scan]) ∧
    (discover_single_device "10.0.0.5" [22, 23] (fun _ => none) (fun _ => none)
        [{ username := "A", password := "x" }]).1 = none := by
  constructor
  · exact (no_auth_no_record "10.0.0.5" [] (fun _ => none) (fun _ => none)
      [{ username := "A", password := "x" }]).1 (by decide)
  · exact (no_auth_no_record "10.0.0.5" [22, 23] (fun _ => none) (fun _ => none)
      [{ username := "A", password := "x" }]).2
      (fun _ _ => rfl) (fun _ _ => rfl)

/-- Helper: with an empty credential list, a single-host probe still runs
the protocol-surface scan and then fails (both credential loops are empty). -/
theorem discover_single_empty_creds (ip : String) (op : List Nat)
    (sshDisc telnetDisc : Cred → Option DeviceInfo) :
    discover_single_device ip op sshDisc telnetDisc [] = (none, [ProbeEv.scan]) := by
  cases hm : (detect_all_protocols op).has_management with
  | false => simp [discover_single_device, hm]
  | true =>
    cases hsb : (detect_all_protocols op).ssh with
    | false =>
      cases htb : (detect_all_protocols op).telnet with
      | false => simp [discover_single_device, hm, hsb, htb]
      | true => simp [discover_single_device, hm, hsb, htb, tryCredentials]
    | true =>
      cases htb : (detect_all_protocols op).telnet with
      | false => simp [discover_single_device, hm, hsb, htb, tryCredentials]
      | true => simp [discover_single_device, hm, hsb, htb, tryCredentials]

/-- C7 counterexample: an empty credential list is *not* rejected before
network activity starts — `discover_devices` on one target with no
credentials performs that host's protocol-surface scan (network activity)
and returns normally, with no error reported to the caller. -/
theorem config_validation_cex :
    (discover_devices (fun _ => []) (fun _ _ => none) (fun _ _ => none)
        ["10.0.0.1"] []).2 = [("10.0.0.1", ProbeEv.scan)] ∧
    [("10.0.0.1", ProbeEv.scan)] ≠ ([] : List (String × ProbeEv)) := by
  constructor
  · rfl
  · simp

/-- C7 amended: the only configuration validation performed before network
activity is the synchronous `DeviceCredentials.__post_init__` check — a
credential record constructs successfully exactly when its username is
non-empty and both ports lie in `[1, 65535]`, and an invalid port raises at
construction time, before any probing.  The batch operation itself rejects
nothing: an empty target list just yields an empty result map with no
network activity and no error, and an empty credential list is not
rejected — every target still gets its protocol-surface scan and the batch
returns an empty result map normally. -/
theorem config_validation_amended :
    (∀ u pw en sp tp st tt d,
      (∃ c, mkDeviceCredentials u pw en sp tp st tt d = .ok c) ↔
        (u ≠ "" ∧ 0 < sp ∧ sp ≤ 65535 ∧ 0 < tp ∧ tp ≤ 65535)) ∧
    (∀ op sshDisc telnetDisc creds,
      discover_devices op sshDisc telnetDisc [] creds = ([], [])) ∧
    (∀ op sshDisc telnetDisc ips,
      discover_devices op sshDisc telnetDisc ips [] =
        ([], ips.map (fun ip => (ip, ProbeEv.scan)))) := by
  refine ⟨?_, fun _ _ _ _ => rfl, ?_⟩
  · intro u pw en sp tp st tt d
    constructor
    · rintro ⟨c, hc⟩
      simp only [mkDeviceCredentials] at hc
      split_ifs at hc with h1 h2 h3
      refine ⟨h1, ?_, ?_, ?_, ?_⟩ <;> omega
    · rintro ⟨h1, h2, h3, h4, h5⟩
      refine ⟨⟨u, pw, en, sp, tp, st, tt, d⟩, ?_⟩
      simp only [mkDeviceCredentials]
      rw [if_neg h1, if_neg (by omega), if_neg (by omega)]
  · intro op sshDisc telnetDisc ips
    induction ips with
    | nil => rfl
    | cons ip rest ih =>
      simp [discover_devices, ih, discover_single_empty_creds]

/-- C7 witness: the amended theorem instantiated at a valid credential
record and an empty target list. -/
theorem config_validation_amended_witness :
    (∃ c, mkDeviceCredentials "admin" "pw" none 22 23 10 10 "" = .ok c) ∧
    discover_devices (fun _ => []) (fun _ _ => none) (fun _ _ => none) [] [] =
      ([], []) := by
  have h := config_validation_amended
  exact ⟨(h.1 "admin" "pw" none 22 23 10 10 "").mpr
    ⟨by decide, by decide, by decide, by decide, by decide⟩,
    h.2.1 _ _ _ []⟩

/-- Helper: Phase 1 stores exactly `phase1Record` for every input host and
touches nothing else; since every write for a host writes the same record,
the result is independent of duplicate processing order. -/
theorem runPhase1_apply (o1 : String → Except String (Bool × Option ℚ)) :
    ∀ (l : List String) (m : String → Option ScanResult) (ip : String),
      runPhase1 o1 l m ip =
        if ip ∈ l then some (phase1Record o1 ip) else m ip := by
  intro l
  induction l with
  | nil => simp [runPhase1]
  | cons x xs ih =>
    intro m ip
    rw [runPhase1, ih]
    by_cases hx : ip ∈ xs
    · simp [hx, List.mem_cons]
    · by_cases hxe : ip = x
      · subst hxe
        simp [hx, mapInsert]
      · simp [hx, hxe, mapInsert]

/-- Helper: the Phase-2 per-host update is idempotent. -/
theorem phase2Update_idem (o2 : String → Except String (List (PingRes × Option ℚ)))
    (ip : String) (r : ScanResult) :
    phase2Update o2 ip (phase2Update o2 ip r) = phase2Update o2 ip r := by
  cases ho : o2 ip with
  | error e => simp [phase2Update, ho]
  | ok samples =>
    cases hml : measureLatency samples with
    | some v => simp [phase2Update, ho, hml]
    | none => simp [phase2Update, ho, hml]

/-- Helper: Phase 2 applies `phase2Update` exactly once (up to idempotence)
to every listed host's record and touches nothing else. -/
theorem runPhase2_apply (o2 : String → Except String (List (PingRes × Option ℚ))) :
    ∀ (l : List String) (m : String → Option ScanResult) (ip : String),
      runPhase2 o2 l m ip =
        if ip ∈ l then (m ip).map (phase2Update o2 ip) else m ip := by
  intro l
  induction l with
  | nil => simp [runPhase2]
  | cons x xs ih =>
    intro m ip
    rw [runPhase2, ih]
    by_cases hx : ip ∈ xs
    · simp only [hx, if_true, List.mem_cons, or_true, if_true]
      by_cases hxe : ip = x
      · subst hxe
        simp only [if_pos rfl]
        cases hmip : m ip with
        | none => rfl
        | some r => simp [Option.map_map, Function.comp, phase2Update_idem]
      · simp [hxe]
    · by_cases hxe : ip = x
      · subst hxe
        simp [hx]
      · simp [hx, hxe]

/-- Helper: pointwise description of the final result map of `scan_hosts`. -/
theorem scan_hosts_apply (o1 : String → Except String (Bool × Option ℚ))
    (o2 : String → Except String (List (PingRes × Option ℚ)))
    (ips : List String) (ip : String) :
    scan_hosts o1 o2 ips ip =
      if ip ∈ ips then
        some (if phase1Alive o1 ip then phase2Update o2 ip (phase1Record o1 ip)
              else phase1Record o1 ip)
      else none := by
  unfold scan_hosts
  rw [runPhase2_apply, runPhase1_apply]
  by_cases hm : ip ∈ ips
  · by_cases ha : phase1Alive o1 ip = true
    · have hmem : ip ∈ aliveHosts o1 ips := List.mem_filter.mpr ⟨hm, ha⟩
      simp [hmem, hm, ha]
    · have hmem : ip ∉ aliveHosts o1 ips := fun h => ha (List.mem_filter.mp h).2
      simp [hmem, hm, Bool.eq_false_iff.mpr ha]
  · have hmem : ip ∉ aliveHosts o1 ips := fun h => hm (List.mem_filter.mp h).1
    simp [hmem, hm]

/-- C10: after `scan_hosts`, the result map holds a `ScanResult` for an IP
exactly when the IP was in the input list — a host whose Phase-1 task
raised an exception is present with `is_alive = false` and `last_error`
populated with the exception text, and a host whose probe simply failed is
present with `is_alive = false`; no input host is silently missing. -/
theorem scan_results_complete (o1 : String → Except String (Bool × Option ℚ))
    (o2 : String → Except String (List (PingRes × Option ℚ)))
    (ips : List String) (ip : String) :
    ((scan_hosts o1 o2 ips ip).isSome ↔ ip ∈ ips) ∧
    (∀ e, ip ∈ ips → o1 ip = .error e →
      scan_hosts o1 o2 ips ip =
        some { ip := ip, is_alive := false, last_error := some e }) ∧
    (∀ lat, ip ∈ ips → o1 ip = .ok (false, lat) →
      scan_hosts o1 o2 ips ip = some { ip := ip, is_alive := false }) := by
  refine ⟨?_, ?_, ?_⟩
  · rw [scan_hosts_apply]
    by_cases hm : ip ∈ ips <;> simp [hm]
  · intro e hm he
    rw [scan_hosts_apply]
    have ha : phase1Alive o1 ip = false := by simp [phase1Alive, he]
    simp [hm, ha, phase1Record, he]
  · intro lat hm ho
    rw [scan_hosts_apply]
    have ha : phase1Alive o1 ip = false := by simp [phase1Alive, ho]
    simp [hm, ha, phase1Record, ho]

/-- C10 witness: a one-host scan whose Phase-1 task raised `boom` still has
that host in the result map, dead, with the error text preserved. -/
theorem scan_results_complete_witness :
    scan_hosts (fun _ => Except.error "boom") (fun _ => Except.ok []) ["h"] "h" =
      some { ip := "h", is_alive := false, last_error := some "boom" } :=
  (scan_results_complete (fun _ => Except.error "boom") (fun _ => Except.ok [])
    ["h"] "h").2.1 "boom" (by simp) rfl

/-- C8 counterexample: a host alive after Phase 1 whose Phase-1 ping parsed
latency 5 and whose Phase-2 window collected zero samples keeps `is_alive`
but still carries a latency figure (the Phase-1 value 5), contradicting the
claim that such a host carries no latency figure. -/
theorem phase2_latency_cex :
    scan_hosts (fun _ => Except.ok (true, some 5)) (fun _ => Except.ok [])
        ["10.0.0.1"] "10.0.0.1" =
      some { ip := "10.0.0.1", is_alive := true, avg_latency := some 5 } ∧
    (some (5 : ℚ) ≠ (none : Option ℚ)) := by
  refine ⟨?_, by simp⟩
  rw [scan_hosts_apply]
  simp [phase1Alive, phase1Record, phase2Update, measureLatency, successLatencies]

/-- C8 amended: a host alive after Phase 1 keeps its liveness whatever
Phase 2 yields; when Phase 2 collects successful samples the reported
average is their arithmetic mean rounded to 2 decimals, and when it
collects none the record retains the latency parsed from the single
Phase-1 ping (so it carries no latency figure only when that parse already
yielded none). -/
theorem phase2_latency (o1 : String → Except String (Bool × Option ℚ))
    (o2 : String → Except String (List (PingRes × Option ℚ)))
    (ips : List String) (ip : String) (lat : Option ℚ)
    (samples : List (PingRes × Option ℚ))
    (hmem : ip ∈ ips) (h1 : o1 ip = .ok (true, lat)) (h2 : o2 ip = .ok samples) :
    scan_hosts o1 o2 ips ip =
      some { ip := ip, is_alive := true,
             avg_latency := (measureLatency samples).elim lat some } ∧
    (successLatencies samples ≠ [] →
      measureLatency samples =
        some (pythonRound2
          ((successLatencies samples).sum / (successLatencies samples).length))) := by
  constructor
  · rw [scan_hosts_apply]
    have ha : phase1Alive o1 ip = true := by simp [phase1Alive, h1]
    have hrec : phase1Record o1 ip =
        { ip := ip, is_alive := true, avg_latency := lat } := by
      simp [phase1Record, h1]
    rw [if_pos hmem, if_pos ha, hrec]
    unfold phase2Update
    rw [h2]
    cases hml : measureLatency samples with
    | some v => simp [hml, Option.elim]
    | none => simp [hml, Option.elim]
  · intro hne
    unfold measureLatency
    rw [if_neg (by simpa [List.isEmpty_iff] using hne)]

/-- C8 witness: Phase-2 samples `[10, 20, 30]` for a host alive after
Phase 1 report exactly the average `20.00`. -/
theorem phase2_latency_witness :
    ("h" ∈ ["h"]) ∧
    scan_hosts (fun _ => Except.ok (true, some 3))
        (fun _ => Except.ok [(PingRes.success, some 10), (PingRes.success, some 20),
                             (PingRes.success, some 30)]) ["h"] "h" =
      some { ip := "h", is_alive := true, avg_latency := some 20 } := by
  have h := phase2_latency (fun _ => Except.ok (true, some 3))
    (fun _ => Except.ok [(PingRes.success, some 10), (PingRes.success, some 20),
                         (PingRes.success, some 30)])
    ["h"] "h" (some 3)
    [(PingRes.success, some 10), (PingRes.success, some 20), (PingRes.success, some 30)]
    (by simp) rfl rfl
  have hml : measureLatency [(PingRes.success, some 10), (PingRes.success, some 20),
      (PingRes.success, some 30)] = some 20 := by
    norm_num [measureLatency, successLatencies, List.filterMap, pythonRound2, halfEvenRound]
  refine ⟨by simp, ?_⟩
  rw [h.1, hml]
  simp [Option.elim]

end Networks
